import Mathlib

/-!
Formal model of the meshtastic firmware upgrade script
(src/meshtastic_upgrade.py): release selection, asset selection, board
image resolution and the prepare/flash orchestration.  Pure logic is
translated function by function; network and file system reads become
explicit list arguments, and the two external command invocations become
an explicit executor function together with a trace of the commands that
were actually executed and logged.
-/

/-- Case folding as performed by re.IGNORECASE on ASCII names: compare the
character lists after mapping each character to lower case. -/
def pyLower (s : String) : List Char := s.data.map Char.toLower

/-- Python str.lstrip with the one character set v, as in
(tag_name or "").lstrip("v") on line 123: drop every leading
occurrence of the character v. -/
def lstripV (s : String) : String := ⟨s.data.dropWhile (· == 'v')⟩

/-- Contiguous containment of a character list in another, by scanning
every tail. -/
def hasSubAux (sub : List Char) : List Char → Bool
  | [] => sub.isEmpty
  | c :: t => sub.isPrefixOf (c :: t) || hasSubAux sub t

/-- Python substring containment, version in p.name, line 138
(case sensitive, contiguous). -/
def containsSubstr (s sub : String) : Bool := hasSubAux sub.data s.data

/-- The filename the strict phase of resolve_board_image builds on
line 124: firmware-<board>-<version>-update.bin. -/
def expected_strict_name (board version : String) : String :=
  "firmware-" ++ board ++ "-" ++ version ++ "-update.bin"

/-- Match of a filename against the anchored strict pattern of line 124,
re.compile of firmware-<board>-<version>-update bin with IGNORECASE.
Board and version pass through re.escape, hence are literal, so the
regex accepts exactly the expected name up to ASCII case. -/
def strictMatches (board version name : String) : Bool :=
  pyLower name == pyLower (expected_strict_name board version)

/-- Match of a filename against the anchored loose pattern of line 130,
firmware-<board>- then any characters then -update.bin, IGNORECASE:
the lowered name must start with the literal prefix part, end with the
literal suffix part, and be long enough that the two literal parts do
not overlap (the middle may be empty). -/
def looseMatches (board name : String) : Bool :=
  let n := pyLower name
  let pre := pyLower ("firmware-" ++ board ++ "-")
  let suf := "-update.bin".data
  pre.isPrefixOf n && suf.isSuffixOf n && decide (pre.length + suf.length ≤ n.length)

/-- Strict phase of resolve_board_image, lines 123 to 128: the strict
regex is built only when the version string is non-empty, and the first
image whose filename matches it is returned. -/
def strictResult (images : List String) (board version : String) : Option String :=
  if version = "" then none
  else images.find? (fun n => strictMatches board version n)

/-- Loose phase of resolve_board_image, lines 129 to 141: filter to the
loose candidates; a single candidate is returned; with several
candidates and a non-empty version, the first candidate containing the
version as a substring is returned (none when no candidate contains
it); in every other case the function returns none. -/
def looseResult (images : List String) (board version : String) : Option String :=
  let candidates := images.filter (fun n => looseMatches board n)
  if candidates.length = 1 then candidates.head?
  else if 1 < candidates.length ∧ version ≠ "" then
    candidates.find? (fun n => containsSubstr n version)
  else none

/-- resolve_board_image, lines 121 to 141.  Images are represented by
their filenames, since the source matches p.name only.  The result none
stands for the ambiguous outcome that defers to the interactive
prompt. -/
def resolve_board_image (images : List String) (board tag_name : String) : Option String :=
  match strictResult images board (lstripV tag_name) with
  | some p => some p
  | none => looseResult images board (lstripV tag_name)

/-- Failure modes of the script: each SystemExit message of the source is
represented by the error name the specification gives it. -/
inductive UpgradeError where
  | NotFound
  | NoCandidates
  | InsufficientHistory
  | NoAssetForPlatform
  | NoImagesFound
deriving DecidableEq

/-- A release asset record, fields used by the source: name and size
(the download url is consumed only by the external downloader). -/
structure Asset where
  name : String
  size : Nat
deriving DecidableEq

/-- A release record as consumed by the source: tag_name, prerelease,
draft, created_at, published_at and the asset list.  Timestamps are the
ISO date strings the metadata provider returns, ordered
lexicographically; a missing timestamp is the empty string. -/
structure Release where
  tag_name : String
  prerelease : Bool
  draft : Bool
  created_at : String
  published_at : String
  assets : List Asset
deriving DecidableEq

/-- The relation realising a Python stable sort in reverse:
list.sort(key=key, reverse=True) orders the elements by key descending
and keeps the original order of elements with equal keys, which is
exactly a sort of the position-value pairs by key descending and then
original position ascending. -/
def pyRel {α β : Type} [LinearOrder β] (key : α → β) (a b : Nat × α) : Prop :=
  key b.2 < key a.2 ∨ (key a.2 = key b.2 ∧ a.1 ≤ b.1)

instance pyRelDecidable {α β : Type} [LinearOrder β] (key : α → β) :
    DecidableRel (pyRel key) := fun a b =>
  inferInstanceAs (Decidable (key b.2 < key a.2 ∨ (key a.2 = key b.2 ∧ a.1 ≤ b.1)))

instance pyRelTotal {α β : Type} [LinearOrder β] (key : α → β) :
    IsTotal (Nat × α) (pyRel key) where
  total a b := by
    rcases lt_trichotomy (key a.2) (key b.2) with h | h | h
    · exact Or.inr (Or.inl h)
    · rcases Nat.le_total a.1 b.1 with h1 | h1
      · exact Or.inl (Or.inr ⟨h, h1⟩)
      · exact Or.inr (Or.inr ⟨h.symm, h1⟩)
    · exact Or.inl (Or.inl h)

instance pyRelTrans {α β : Type} [LinearOrder β] (key : α → β) :
    IsTrans (Nat × α) (pyRel key) where
  trans a b c hab hbc := by
    rcases hab with h1 | ⟨e1, i1⟩
    · rcases hbc with h2 | ⟨e2, _⟩
      · exact Or.inl (h2.trans h1)
      · exact Or.inl (e2 ▸ h1)
    · rcases hbc with h2 | ⟨e2, i2⟩
      · exact Or.inl (e1 ▸ h2)
      · exact Or.inr ⟨e1.trans e2, i1.trans i2⟩

/-- Stable descending sort on position-value pairs, the shallow
embedding of list.sort(key=key, reverse=True) before the positions are
discarded. -/
def pySortE {α β : Type} [LinearOrder β] (key : α → β) (l : List α) :
    List (Nat × α) :=
  List.insertionSort (pyRel key) l.enum

/-- Stable descending sort, the embedding of
list.sort(key=key, reverse=True). -/
def pySort {α β : Type} [LinearOrder β] (key : α → β) (l : List α) : List α :=
  (pySortE key l).map Prod.snd

/-- The sort key of find_release, line 81:
r.get("created_at") or r.get("published_at"), with the Python or
falling through on a missing or empty created_at. -/
def releaseKey (r : Release) : String :=
  if r.created_at = "" then r.published_at else r.created_at

/-- Channel search of find_release, lines 74 to 85: filter the feed to
non-draft releases of the requested channel, fail on an empty filtered
set, sort by timestamp descending (stable) and select index 0, or
index 1 when previous is requested, failing when the index is out of
range. -/
def find_release_channel (catalog : List Release) (previous alpha : Bool) :
    Except UpgradeError Release :=
  let candidates :=
    if alpha then catalog.filter (fun r => r.prerelease && !r.draft)
    else catalog.filter (fun r => !r.prerelease && !r.draft)
  if candidates = [] then .error .NoCandidates
  else
    let sorted := pySort releaseKey candidates
    let idx := if previous then 1 else 0
    if h : idx < sorted.length then .ok (sorted.get ⟨idx, h⟩)
    else .error .InsufficientHistory

/-- find_release, lines 71 to 85.  The release feed is passed in as the
catalog list.  A truthy tag short-circuits to the release-by-tag lookup
of the metadata provider, modelled as the first catalog entry carrying
that tag, with no draft or channel filtering; an absent tag is the
NotFound failure. -/
def find_release (catalog : List Release) (previous alpha : Bool)
    (tag : Option String) : Except UpgradeError Release :=
  match tag with
  | some t =>
    if t = "" then find_release_channel catalog previous alpha
    else
      match catalog.find? (fun r => r.tag_name = t) with
      | some r => .ok r
      | none => .error .NotFound
  | none => find_release_channel catalog previous alpha

/-- Match of an asset name against the anchored pattern of line 89,
firmware-<platform>- then any characters then a zip extension,
IGNORECASE, with the platform re.escape-d.  Same reading as
looseMatches: literal prefix, literal suffix, no overlap. -/
def assetNameMatches (platform name : String) : Bool :=
  let n := pyLower name
  let pre := pyLower ("firmware-" ++ platform ++ "-")
  let suf := ".zip".data
  pre.isPrefixOf n && suf.isSuffixOf n && decide (pre.length + suf.length ≤ n.length)

/-- The filtered asset list of line 90. -/
def platformMatches (release : Release) (platform : String) : List Asset :=
  release.assets.filter (fun a => assetNameMatches platform a.name)

/-- pick_asset_for_platform, lines 87 to 94: filter the assets, fail when
nothing matches, sort by size descending (stable, prefer largest) and
return the first element.  The empty branch of the inner match is
unreachable, since a sort of a non-empty list is non-empty. -/
def pick_asset_for_platform (release : Release) (platform : String) :
    Except UpgradeError Asset :=
  let matched := platformMatches release platform
  if matched = [] then .error .NoAssetForPlatform
  else
    match pySort (fun a : Asset => a.size) matched with
    | [] => .error .NoAssetForPlatform
    | a :: _ => .ok a

/-- list_update_bins, lines 115 to 119: the recursive file listing is
passed in as the list of filenames; sorted() of the listing, then a hard
failure when no update image is present. -/
def list_update_bins (bins : List String) : Except UpgradeError (List String) :=
  let sortedBins := List.insertionSort (· ≤ ·) bins
  if sortedBins = [] then .error .NoImagesFound
  else .ok sortedBins

/-- Image selection segment of main, lines 234 to 241: list the update
images (hard failure when none), then, when a board was given, run
resolve_board_image on the stripped board slug; a none result, like an
absent board, defers to the interactive prompt. -/
def select_image (bins : List String) (board : Option String)
    (tag_name : String) : Except UpgradeError (Option String) :=
  match list_update_bins bins with
  | .error e => .error e
  | .ok images =>
    .ok (match board with
      | some b => resolve_board_image images b.trim tag_name
      | none => none)

/-- The two external command invocations of main: the optional
change-mode preparation and the flash itself. -/
inductive Step where
  | prepare
  | flash
deriving DecidableEq

/-- Outcome of the run: success, or the non-zero exit code the process
propagates through sys.exit. -/
inductive Outcome where
  | Success
  | Failed (code : Int)
deriving DecidableEq

/-- run, lines 143 to 149, instrumented with an explicit effect trace:
the returned triple is the exit status the caller sees, the commands
actually handed to the real executor, and the commands logged.  In
dry-run mode nothing is executed and the status is 0; the command is
logged when verbose or dry-run is set. -/
def run (cmd : Step) (exec : Step → Int) (dry_run verbose : Bool) :
    Int × List Step × List Step :=
  (if dry_run then 0 else exec cmd,
   if dry_run then [] else [cmd],
   if verbose || dry_run then [cmd] else [])

/-- Orchestration tail of main, lines 273 to 293: when change-mode is
requested, run the prepare command first and abort with its exit code
when it is non-zero, never reaching the flash command; otherwise run the
flash command, whose exit status decides the outcome.  The result
carries the outcome and the accumulated executed and logged traces. -/
def flash_orchestrate (change_mode dry_run verbose : Bool)
    (exec : Step → Int) : Outcome × List Step × List Step :=
  if change_mode then
    let r1 := run .prepare exec dry_run verbose
    if r1.1 ≠ 0 then (.Failed r1.1, r1.2.1, r1.2.2)
    else
      let r2 := run .flash exec dry_run verbose
      (if r2.1 = 0 then .Success else .Failed r2.1,
       r1.2.1 ++ r2.2.1, r1.2.2 ++ r2.2.2)
  else
    let r2 := run .flash exec dry_run verbose
    (if r2.1 = 0 then .Success else .Failed r2.1, r2.2.1, r2.2.2)

/-- A stable, non-draft release for concrete instances. -/
def relStable : Release :=
  { tag_name := "v1", prerelease := false, draft := false,
    created_at := "2024-01-01T00:00:00Z",
    published_at := "2024-01-01T00:00:00Z", assets := [] }

/-- A draft release for concrete instances. -/
def relDraft : Release :=
  { tag_name := "v9", prerelease := false, draft := true,
    created_at := "2024-02-01T00:00:00Z",
    published_at := "2024-02-01T00:00:00Z", assets := [] }

/-- The smaller bundle of the asset-selection example. -/
def exAsset1 : Asset := { name := "firmware-esp32s3-v2.7.zip", size := 100 }

/-- The larger debug bundle of the asset-selection example. -/
def exAsset2 : Asset := { name := "firmware-esp32s3-v2.7-debug.zip", size := 500 }

/-- The release carrying the two example bundles. -/
def exRelease : Release :=
  { tag_name := "v2.7", prerelease := false, draft := false,
    created_at := "", published_at := "", assets := [exAsset1, exAsset2] }

/-- First of two equally sized matching assets. -/
def tieAsset1 : Asset := { name := "firmware-esp32-a.zip", size := 7 }

/-- Second of two equally sized matching assets. -/
def tieAsset2 : Asset := { name := "firmware-esp32-b.zip", size := 7 }

/-- A release whose two matching assets tie on byte size. -/
def tieRelease : Release :=
  { tag_name := "v1", prerelease := false, draft := false,
    created_at := "", published_at := "", assets := [tieAsset1, tieAsset2] }

/-- Decidable equality of Except results, for evaluating concrete runs. -/
instance exceptDecEq {ε α : Type} [DecidableEq ε] [DecidableEq α] :
    DecidableEq (Except ε α) := fun x y =>
  match x, y with
  | .error e, .error f =>
    if h : e = f then .isTrue (by rw [h])
    else .isFalse (fun hc => h (by cases hc; rfl))
  | .error _, .ok _ => .isFalse (fun hc => Except.noConfusion hc)
  | .ok _, .error _ => .isFalse (fun hc => Except.noConfusion hc)
  | .ok a, .ok b =>
    if h : a = b then .isTrue (by rw [h])
    else .isFalse (fun hc => h (by cases hc; rfl))

theorem pySortE_perm {α β : Type} [LinearOrder β] (key : α → β) (l : List α) :
    (pySortE key l).Perm l.enum :=
  List.perm_insertionSort _ _

theorem pySortE_pairwise {α β : Type} [LinearOrder β] (key : α → β) (l : List α) :
    (pySortE key l).Pairwise (pyRel key) :=
  List.sorted_insertionSort _ _

theorem pySort_perm {α β : Type} [LinearOrder β] (key : α → β) (l : List α) :
    (pySort key l).Perm l := by
  have h := (pySortE_perm key l).map Prod.snd
  rwa [List.enum_map_snd] at h

theorem pySortE_fst_ne {α β : Type} [LinearOrder β] (key : α → β) (l : List α) :
    (pySortE key l).Pairwise (fun a b => a.1 ≠ b.1) := by
  have hperm := (pySortE_perm key l).map Prod.fst
  rw [List.enum_map_fst] at hperm
  have hnodup : ((pySortE key l).map Prod.fst).Nodup :=
    hperm.nodup_iff.mpr (List.nodup_range _)
  exact List.pairwise_map.mp hnodup

theorem pySortE_desc {α β : Type} [LinearOrder β] (key : α → β) (l : List α) :
    (pySortE key l).Pairwise (fun a b => key b.2 ≤ key a.2) := by
  refine List.Pairwise.imp ?_ (pySortE_pairwise key l)
  intro a b hab
  rcases hab with h | ⟨h, _⟩
  · exact le_of_lt h
  · exact le_of_eq h.symm

theorem pySortE_stable {α β : Type} [LinearOrder β] (key : α → β) (l : List α) :
    (pySortE key l).Pairwise (fun a b => key a.2 = key b.2 → a.1 < b.1) := by
  refine List.Pairwise.imp ?_
    ((pySortE_pairwise key l).and (pySortE_fst_ne key l))
  rintro a b ⟨hrel, hne⟩ heq
  rcases hrel with h | ⟨_, hle⟩
  · rw [heq] at h; exact absurd h (lt_irrefl _)
  · exact lt_of_le_of_ne hle hne

theorem mem_pySortE {α β : Type} [LinearOrder β] (key : α → β) (l : List α)
    (x : Nat × α) (hx : x ∈ pySortE key l) :
    ∃ h : x.1 < l.length, l.get ⟨x.1, h⟩ = x.2 := by
  have hmem := (pySortE_perm key l).mem_iff.mp hx
  rw [List.mem_enum_iff_getElem?, List.getElem?_eq_some_iff] at hmem
  obtain ⟨h, hget⟩ := hmem
  exact ⟨h, hget⟩

theorem enum_mem_pySortE {α β : Type} [LinearOrder β] (key : α → β)
    (l : List α) (i : Nat) (h : i < l.length) :
    (i, l.get ⟨i, h⟩) ∈ pySortE key l := by
  apply (pySortE_perm key l).mem_iff.mpr
  rw [List.mem_enum_iff_getElem?]
  simp

/-- The head of the stable descending sort carries the first original
position at which the maximal key is attained: it is an element of the
input list, every key is at most its key, and every original position
strictly before it has a strictly smaller key than every position with
the maximal key, expressed through the minimality of its position among
the positions realising the maximal key. -/
theorem pySortE_head_spec {α β : Type} [LinearOrder β] (key : α → β)
    (l : List α) (p : Nat × α) (t : List (Nat × α))
    (h : pySortE key l = p :: t) :
    ∃ hp : p.1 < l.length, l.get ⟨p.1, hp⟩ = p.2 ∧
      (∀ b ∈ l, key b ≤ key p.2) ∧
      ∀ j, ∀ hj : j < l.length, key (l.get ⟨j, hj⟩) = key p.2 → p.1 ≤ j := by
  have hmemP : p ∈ pySortE key l := by rw [h]; exact List.mem_cons_self _ _
  obtain ⟨hp, hget⟩ := mem_pySortE key l p hmemP
  have hrel : ∀ x ∈ pySortE key l, pyRel key p x := by
    intro x hx
    rw [h] at hx
    rcases List.mem_cons.mp hx with rfl | hx
    · exact Or.inr ⟨rfl, Nat.le_refl _⟩
    · have hpw := pySortE_pairwise key l
      rw [h] at hpw
      exact (List.pairwise_cons.mp hpw).1 x hx
  refine ⟨hp, hget, ?_, ?_⟩
  · intro b hb
    obtain ⟨⟨i, hi⟩, hgi⟩ := List.mem_iff_get.mp hb
    have hmem := enum_mem_pySortE key l i hi
    have := hrel _ hmem
    rcases this with hlt | ⟨heq, _⟩
    · simp only [hgi] at hlt
      exact le_of_lt hlt
    · simp only [hgi] at heq
      exact le_of_eq heq.symm
  · intro j hj heq
    have hmem := enum_mem_pySortE key l j hj
    have := hrel _ hmem
    rcases this with hlt | ⟨_, hle⟩
    · rw [heq] at hlt
      exact absurd hlt (lt_irrefl _)
    · exact hle

/-- C1 counterexample: with the empty release tag the computed version is
empty; the first image below is literally the expected strict filename
firmware-b--update.bin, so it matches the expected name
case-insensitively, yet resolve_board_image does not return it: the
strict phase is skipped for an empty version and the loose phase finds
two candidates with no tie-break available, so the result is none. -/
theorem C1_strict_counterexample :
    expected_strict_name "b" (lstripV "") = "firmware-b--update.bin" ∧
    strictMatches "b" (lstripV "") "firmware-b--update.bin" = true ∧
    resolve_board_image ["firmware-b--update.bin", "firmware-b-x-update.bin"]
      "b" "" = none := by
  refine ⟨by decide, by decide, by decide⟩

/-- C1 (amended): provided the computed version, the release tag with its
leading v characters stripped, is non-empty, the strict phase constructs
the expected filename firmware-<board>-<version>-update.bin, and when
some image matches it case-insensitively, resolve_board_image returns
the first such image immediately, whatever the loose phase would say. -/
theorem C1_strict_phase (images : List String) (board tag img : String)
    (hv : lstripV tag ≠ "")
    (hf : images.find? (fun n => strictMatches board (lstripV tag) n) = some img) :
    resolve_board_image images board tag = some img := by
  unfold resolve_board_image strictResult
  rw [if_neg hv, hf]

theorem C1_strict_phase_witness :
    resolve_board_image ["firmware-tlora-t3s3-v1-2.7.11-update.bin"]
      "tlora-t3s3-v1" "v2.7.11"
      = some "firmware-tlora-t3s3-v1-2.7.11-update.bin" :=
  C1_strict_phase _ _ _ _ (by decide) (by decide)

/-- C2: when the strict phase finds no match, the loose phase filters the
images to the candidates matching firmware-<board>-...-update.bin
case-insensitively; a sole candidate is returned; with several
candidates and a non-empty version, the first candidate containing the
version as a substring is returned; and in every other case, several
candidates with an empty version or with no candidate containing it, or
no candidate at all, the result is none and no image is chosen by any
further heuristic. -/
theorem C2_loose_phase (images : List String) (board tag : String)
    (candidates : List String)
    (hstrict : strictResult images board (lstripV tag) = none)
    (hcand : candidates = images.filter (fun n => looseMatches board n)) :
    (∀ c, candidates = [c] → resolve_board_image images board tag = some c) ∧
    (∀ c, 1 < candidates.length → lstripV tag ≠ "" →
      candidates.find? (fun n => containsSubstr n (lstripV tag)) = some c →
      resolve_board_image images board tag = some c) ∧
    (1 < candidates.length →
      (lstripV tag = "" ∨
        candidates.find? (fun n => containsSubstr n (lstripV tag)) = none) →
      resolve_board_image images board tag = none) ∧
    (candidates = [] → resolve_board_image images board tag = none) := by
  have hres : resolve_board_image images board tag
      = looseResult images board (lstripV tag) := by
    unfold resolve_board_image
    rw [hstrict]
  rw [hres]
  unfold looseResult
  rw [← hcand]
  refine ⟨?_, ?_, ?_, ?_⟩
  · intro c h1
    rw [h1]
    rfl
  · intro c hlen hv hfind
    rw [if_neg (by omega : ¬ candidates.length = 1), if_pos ⟨hlen, hv⟩, hfind]
  · intro hlen hdis
    rw [if_neg (by omega : ¬ candidates.length = 1)]
    by_cases hv : lstripV tag = ""
    · rw [if_neg (fun hc => hc.2 hv)]
    · rcases hdis with hve | hfn
      · exact absurd hve hv
      · rw [if_pos ⟨hlen, hv⟩, hfn]
  · intro h4
    rw [h4]
    rfl

theorem C2_loose_phase_witness :
    resolve_board_image ["firmware-tlora-t3s3-v1-2.7.10-update.bin"]
      "tlora-t3s3-v1" "v2.7.11"
      = some "firmware-tlora-t3s3-v1-2.7.10-update.bin" :=
  (C2_loose_phase ["firmware-tlora-t3s3-v1-2.7.10-update.bin"]
    "tlora-t3s3-v1" "v2.7.11" ["firmware-tlora-t3s3-v1-2.7.10-update.bin"]
    (by decide) (by decide)).1 _ rfl

/-- C6: when the prepare step is requested and its invocation returns a
non-zero exit status, the orchestrated outcome is Failed carrying
exactly that status as the propagated process exit code, the executed
trace holds the prepare command only, and the flash command is neither
executed nor even logged. -/
theorem C6_failed_prepare (dry_run verbose : Bool) (exec : Step → Int)
    (n : Int) (hn : (run .prepare exec dry_run verbose).1 = n) (h0 : n ≠ 0) :
    flash_orchestrate true dry_run verbose exec =
      (.Failed n, (run .prepare exec dry_run verbose).2.1,
        (run .prepare exec dry_run verbose).2.2) ∧
    Step.flash ∉ (flash_orchestrate true dry_run verbose exec).2.1 ∧
    Step.flash ∉ (flash_orchestrate true dry_run verbose exec).2.2 := by
  subst hn
  cases dry_run with
  | true => simp [run] at h0
  | false =>
    have h0x : ¬ exec Step.prepare = 0 := by simpa [run] using h0
    refine ⟨?_, ?_, ?_⟩
    · simp [flash_orchestrate, run, h0x]
    · cases verbose <;> simp [flash_orchestrate, run, h0x]
    · cases verbose <;> simp [flash_orchestrate, run, h0x]

theorem C6_failed_prepare_witness :
    flash_orchestrate true false false (fun _ => 5)
      = (.Failed 5, [.prepare], []) := by
  have h := C6_failed_prepare false false (fun _ => 5) 5 rfl (by decide)
  simpa [run] using h.1

/-- C7: an empty image list is the hard failure NoImagesFound, raised
before any board-based resolution is attempted, whatever the board hint
and the release tag. -/
theorem C7_no_images (board : Option String) (tag_name : String) :
    select_image [] board tag_name = .error .NoImagesFound := by
  rfl

/-- C8: in dry-run mode the orchestrator hands nothing to the real
executor, logs every requested command, treats each as exiting with
status 0, and the outcome is Success, for every executor and in both
the with-prepare and the without-prepare shape of the run. -/
theorem C8_dry_run (change_mode verbose : Bool) (exec : Step → Int) :
    flash_orchestrate change_mode true verbose exec =
      (.Success, [], if change_mode then [.prepare, .flash] else [.flash]) := by
  cases change_mode <;> simp [flash_orchestrate, run]

/-- C10: when the release tag consists only of leading v characters, the
empty tag included, the computed version is empty: the strict phase is
skipped entirely, resolution proceeds directly to the loose phase, and
there the version-substring tie-break is unavailable, so a sole loose
candidate is returned and any other number of loose candidates, several
in particular, yields none. -/
theorem C10_empty_version (images : List String) (board tag : String)
    (hall : tag.data.all (· == 'v') = true) :
    resolve_board_image images board tag =
      (if (images.filter (fun n => looseMatches board n)).length = 1
       then (images.filter (fun n => looseMatches board n)).head?
       else none) := by
  have hv : lstripV tag = "" := by
    unfold lstripV
    have hd : tag.data.dropWhile (· == 'v') = [] := by
      rw [List.dropWhile_eq_nil_iff]
      intro x hx
      exact (List.all_eq_true.mp hall) x hx
    rw [hd]
  have hres : resolve_board_image images board tag
      = looseResult images board "" := by
    unfold resolve_board_image
    rw [hv]
    unfold strictResult
    rw [if_pos rfl]
  rw [hres]
  unfold looseResult
  by_cases hlen : (images.filter (fun n => looseMatches board n)).length = 1
  · rw [if_pos hlen, if_pos hlen]
  · rw [if_neg hlen, if_neg hlen,
      if_neg (fun hc : _ ∧ ¬("" = "") => hc.2 rfl)]

theorem C10_empty_version_witness :
    resolve_board_image ["firmware-b-1-update.bin", "firmware-b-2-update.bin"]
      "b" "v" = none := by
  have h := C10_empty_version
    ["firmware-b-1-update.bin", "firmware-b-2-update.bin"] "b" "v" (by decide)
  rw [h]
  decide

theorem selection_mem_core (candidates : List Release) (idx : Nat)
    (r : Release)
    (h : (if candidates = []
          then (.error .NoCandidates : Except UpgradeError Release)
          else if hd : idx < (pySort releaseKey candidates).length
          then .ok ((pySort releaseKey candidates).get ⟨idx, hd⟩)
          else .error .InsufficientHistory) = .ok r) :
    r ∈ candidates := by
  split at h
  · exact Except.noConfusion h
  · split at h
    · injection h with h2
      have hget := List.get_mem (pySort releaseKey candidates) idx ‹_›
      rw [h2] at hget
      exact ((pySort_perm releaseKey candidates).mem_iff).mp hget
    · exact Except.noConfusion h

theorem find_release_channel_mem (catalog : List Release)
    (previous alpha : Bool) (r : Release)
    (h : find_release_channel catalog previous alpha = .ok r) :
    r ∈ (if alpha then catalog.filter (fun x => x.prerelease && !x.draft)
        else catalog.filter (fun x => !x.prerelease && !x.draft)) :=
  selection_mem_core _ (if previous then 1 else 0) r h

/-- The head of the stable descending sort is the element at the first
original position attaining the maximal key. -/
theorem pySort_head_spec {α β : Type} [LinearOrder β] (key : α → β)
    (l : List α) (a : α) (t : List α) (h : pySort key l = a :: t) :
    ∃ i, ∃ hi : i < l.length, l.get ⟨i, hi⟩ = a ∧
      (∀ b ∈ l, key b ≤ key a) ∧
      ∀ j, ∀ hj : j < l.length, j < i → key (l.get ⟨j, hj⟩) < key a := by
  unfold pySort at h
  cases hE : pySortE key l with
  | nil => rw [hE] at h; exact absurd h (by simp)
  | cons p t' =>
    rw [hE, List.map_cons] at h
    have h1 : p.2 = a := (List.cons.injEq _ _ _ _ ▸ h : _ ∧ _).1
    obtain ⟨hp, hget, hmax, hmin⟩ := pySortE_head_spec key l p t' hE
    refine ⟨p.1, hp, by rw [hget, h1], ?_, ?_⟩
    · intro b hb
      rw [← h1]
      exact hmax b hb
    · intro j hj hlt
      rcases lt_or_eq_of_le (h1 ▸ hmax _ (List.get_mem l j hj)) with hstrict | heq
      · exact hstrict
      · rw [← h1] at heq
        exact absurd (hmin j hj heq) (by omega)

theorem pick_asset_ok_head (release : Release) (platform : String) (a : Asset)
    (h : pick_asset_for_platform release platform = .ok a) :
    ∃ t, pySort (fun x : Asset => x.size) (platformMatches release platform)
      = a :: t := by
  simp only [pick_asset_for_platform] at h
  split at h
  · exact Except.noConfusion h
  · split at h
    · exact Except.noConfusion h
    · rename_i hd tl heq
      injection h with h1
      exact ⟨tl, by rw [heq, h1]⟩

/-- C3 counterexample: with an explicit tag the source fetches the tagged
release directly, with no draft or channel filtering, so an alpha
request carrying a tag hands back a stable release, and a draft release
carrying the requested tag is handed back as well. -/
theorem C3_channel_counterexample :
    (find_release [relStable] false true (some "v1") = .ok relStable ∧
      relStable.prerelease = false) ∧
    (find_release [relDraft] false false (some "v9") = .ok relDraft ∧
      relDraft.draft = true) :=
  ⟨⟨rfl, rfl⟩, ⟨rfl, rfl⟩⟩

/-- C3 (amended): when no explicit tag is supplied, find_release never
returns a draft release and never a release of the wrong channel: an
alpha request only returns prerelease releases and a stable request
only non-prerelease ones, for every catalog and previous flag.  With an
explicit tag the tagged release is returned regardless of its draft and
prerelease flags. -/
theorem C3_no_draft_right_channel (catalog : List Release)
    (previous alpha : Bool) (r : Release)
    (h : find_release catalog previous alpha none = .ok r) :
    r.draft = false ∧ r.prerelease = alpha := by
  have hmem := find_release_channel_mem catalog previous alpha r h
  cases alpha with
  | false =>
    simp only [Bool.false_eq_true, if_false] at hmem
    have hpred := (List.mem_filter.mp hmem).2
    simp only [Bool.and_eq_true, Bool.not_eq_true'] at hpred
    exact ⟨hpred.2, hpred.1⟩
  | true =>
    simp only [if_true] at hmem
    have hpred := (List.mem_filter.mp hmem).2
    simp only [Bool.and_eq_true, Bool.not_eq_true'] at hpred
    exact ⟨hpred.2, hpred.1⟩

theorem C3_no_draft_right_channel_witness :
    relStable.draft = false ∧ relStable.prerelease = false :=
  C3_no_draft_right_channel [relStable] false false relStable (by decide)

/-- C4: on the channel path the candidate list is sorted by the
timestamp key descending and stably: the sorted position-value pairs
are a permutation of the position-tagged candidates, pairwise
descending in key, and ties are strictly increasing in original feed
position; on a non-empty candidate list find_release returns the sorted
element at index 0, respectively index 1 when previous is requested,
and fails with InsufficientHistory exactly when the requested index is
not below the candidate count, so previous with a single eligible
release fails. -/
theorem C4_sorted_selection (catalog : List Release) (previous alpha : Bool)
    (candidates : List Release) (sortedE : List (Nat × Release))
    (hcand : candidates =
      (if alpha then catalog.filter (fun r => r.prerelease && !r.draft)
       else catalog.filter (fun r => !r.prerelease && !r.draft)))
    (hsort : sortedE = pySortE releaseKey candidates) :
    sortedE.Perm candidates.enum ∧
    sortedE.Pairwise (fun a b => releaseKey b.2 ≤ releaseKey a.2) ∧
    sortedE.Pairwise (fun a b => releaseKey a.2 = releaseKey b.2 → a.1 < b.1) ∧
    (candidates ≠ [] →
      (∀ h : (if previous then 1 else 0) < (sortedE.map Prod.snd).length,
        find_release catalog previous alpha none
          = .ok ((sortedE.map Prod.snd).get ⟨if previous then 1 else 0, h⟩)) ∧
      ((sortedE.map Prod.snd).length ≤ (if previous then 1 else 0) →
        find_release catalog previous alpha none
          = .error .InsufficientHistory)) := by
  subst hsort
  subst hcand
  refine ⟨pySortE_perm _ _, pySortE_desc _ _, pySortE_stable _ _, ?_⟩
  intro hne
  constructor
  · intro hlt
    simp only [find_release, find_release_channel, pySort]
    rw [if_neg hne, dif_pos hlt]
  · intro hge
    simp only [find_release, find_release_channel, pySort]
    rw [if_neg hne, dif_neg (by omega)]

theorem C4_sorted_selection_witness :
    find_release [relStable] true false none = .error .InsufficientHistory := by
  have h := C4_sorted_selection [relStable] true false
    (if false then List.filter (fun r => r.prerelease && !r.draft) [relStable]
     else List.filter (fun r => !r.prerelease && !r.draft) [relStable])
    (pySortE releaseKey
      (if false then List.filter (fun r => r.prerelease && !r.draft) [relStable]
       else List.filter (fun r => !r.prerelease && !r.draft) [relStable]))
    rfl rfl
  exact (h.2.2.2 (by decide)).2 (by decide)

/-- C5: pick_asset_for_platform keeps exactly the assets whose name
matches firmware-<platform>-...zip case-insensitively, fails with
NoAssetForPlatform exactly when no asset matches, and otherwise returns
a matching asset of maximal byte size; on the two-asset example of the
specification for platform esp32s3 it returns the debug bundle of size
500. -/
theorem C5_pick_asset (release : Release) (platform : String) (a : Asset) :
    (pick_asset_for_platform release platform = .ok a →
      a ∈ release.assets ∧ assetNameMatches platform a.name = true ∧
      ∀ b ∈ release.assets, assetNameMatches platform b.name = true →
        b.size ≤ a.size) ∧
    (pick_asset_for_platform release platform = .error .NoAssetForPlatform ↔
      platformMatches release platform = []) ∧
    pick_asset_for_platform exRelease "esp32s3" = .ok exAsset2 := by
  refine ⟨?_, ⟨?_, ?_⟩, by decide⟩
  · intro h
    obtain ⟨t, ht⟩ := pick_asset_ok_head release platform a h
    obtain ⟨i, hi, hget, hmax, -⟩ :=
      pySort_head_spec (fun x : Asset => x.size) _ a t ht
    have hmem : a ∈ platformMatches release platform := hget ▸ List.get_mem _ i hi
    have hfil := List.mem_filter.mp hmem
    refine ⟨hfil.1, hfil.2, ?_⟩
    intro b hb hbm
    exact hmax b (List.mem_filter.mpr ⟨hb, hbm⟩)
  · intro h
    by_contra hne
    simp only [pick_asset_for_platform, if_neg hne] at h
    have hlen : (pySort (fun x : Asset => x.size)
        (platformMatches release platform)).length
        = (platformMatches release platform).length :=
      (pySort_perm _ _).length_eq
    cases hE : pySort (fun x : Asset => x.size) (platformMatches release platform) with
    | nil =>
      rw [hE] at hlen
      exact hne (List.length_eq_zero.mp hlen.symm)
    | cons hd tl =>
      rw [hE] at h
      exact Except.noConfusion h
  · intro h
    simp only [pick_asset_for_platform, if_pos h]

theorem C5_pick_asset_witness :
    exAsset2 ∈ exRelease.assets ∧
    assetNameMatches "esp32s3" exAsset2.name = true ∧
    ∀ b ∈ exRelease.assets, assetNameMatches "esp32s3" b.name = true →
      b.size ≤ exAsset2.size :=
  (C5_pick_asset exRelease "esp32s3" exAsset2).1 (by decide)

/-- C9: the size sort of pick_asset_for_platform is stable, so the
returned asset is the earliest matching asset of maximal byte size in
the original asset order: it sits at some position of the filtered
list, every match has size at most its size, and every match at a
strictly earlier position has strictly smaller size, making the choice
deterministic under size ties. -/
theorem C9_pick_asset_stable (release : Release) (platform : String)
    (a : Asset) (h : pick_asset_for_platform release platform = .ok a) :
    ∃ i, ∃ hi : i < (platformMatches release platform).length,
      (platformMatches release platform).get ⟨i, hi⟩ = a ∧
      (∀ b ∈ platformMatches release platform, b.size ≤ a.size) ∧
      ∀ j, ∀ hj : j < (platformMatches release platform).length,
        j < i → ((platformMatches release platform).get ⟨j, hj⟩).size < a.size := by
  obtain ⟨t, ht⟩ := pick_asset_ok_head release platform a h
  exact pySort_head_spec (fun x : Asset => x.size) _ a t ht

theorem C9_pick_asset_stable_witness :
    ∃ i, ∃ hi : i < (platformMatches tieRelease "esp32").length,
      (platformMatches tieRelease "esp32").get ⟨i, hi⟩ = tieAsset1 ∧
      (∀ b ∈ platformMatches tieRelease "esp32", b.size ≤ tieAsset1.size) ∧
      ∀ j, ∀ hj : j < (platformMatches tieRelease "esp32").length,
        j < i →
          ((platformMatches tieRelease "esp32").get ⟨j, hj⟩).size
            < tieAsset1.size :=
  C9_pick_asset_stable tieRelease "esp32" tieAsset1 (by decide)

example : lstripV "v2.7.11" = "2.7.11" := by decide
example : lstripV "vv1" = "1" := by decide
example : lstripV "" = "" := by decide
example : resolve_board_image ["firmware-tlora-t3s3-v1-2.7.11-update.bin"]
    "tlora-t3s3-v1" "v2.7.11" = some "firmware-tlora-t3s3-v1-2.7.11-update.bin" := by decide
example : resolve_board_image ["firmware-tlora-t3s3-v1-2.7.10-update.bin"]
    "tlora-t3s3-v1" "v2.7.11" = some "firmware-tlora-t3s3-v1-2.7.10-update.bin" := by decide
example : resolve_board_image ["firmware-b--update.bin", "firmware-b-x-update.bin"]
    "b" "" = none := by decide
example : looseMatches "tlora-t3s3-v1" "firmware-tlora-t3s3-v1-update.bin" = false := by decide
